import Mathlib

/-!
# Verification of the AT25SF041 SPI-NOR driver core

Shallow embedding of `source/at25sf041.c`: the connection probe
(`at25sf041_test_con`), register access (`at25sf041_read_reg`,
`at25sf041_write_reg`), the linear reader (`at25sf041_read`) and the
page-splitting writer (`at25sf041_write` built on `at25sf041_write_page`).

Bus behaviour (the result of `spi_sync` and the bytes the chip puts on the
wire) is supplied by an environment; each operation returns its C return
value together with the list of bus transactions it issued, so that claims
about "no transaction is issued" and about the sequence of page-program
calls can be stated directly.

Machine integers: `loff_t`/`ssize_t` are modelled as `Int`, `size_t` as
`Nat`; the places where the C arithmetic wraps are made explicit over
`2 ^ 64`: the unsigned sum `from + len` (respectively `to + len`) inside
the clamps wraps via `% 2 ^ 64`, `end - from` landing in a `size_t`
wraps via `toSize`, and a `size_t` returned as `ssize_t` is read back
with `toSSize`.
-/

namespace AT25SF041

/-- Linux errno value: `-EIO` in the source is `- EIO` here. -/
def EIO : Int := 5

/-- Status-register write-in-progress flag, `SR_WIP = BIT(0)` from
`linux/mtd/spi-nor.h`. -/
def SR_WIP : Nat := 1

def AT25SF041_MAN_ID : Nat := 0x1F

def AT25SF041_DEV_ID1 : Nat := 0x84

def AT25SF041_DEV_ID2 : Nat := 0x01

def AT25SF041_PAGE_SIZE : Nat := 256

/-- `size_t` truncation of a mathematical integer
(`18446744073709551616 = 2 ^ 64`). -/
def toSize (i : Int) : Nat := (i % (18446744073709551616 : Int)).toNat

/-- Reading a 64-bit `size_t` value back as an `ssize_t`
(`9223372036854775808 = 2 ^ 63`). -/
def toSSize (n : Nat) : Int :=
  if n < 9223372036854775808 then (n : Int)
  else (n : Int) - 18446744073709551616

/-- What the bus delivers during one run of `at25sf041_test_con`: the
result of its single `spi_sync`, the received status byte and the three
received identity bytes. -/
structure ProbeEnv where
  syncResult : Int
  status : Nat
  id0 : Nat
  id1 : Nat
  id2 : Nat
  deriving DecidableEq, Repr

/-- `at25sf041_test_con` (source lines 46-98): issue the status-read /
identity-read transaction; a failing `spi_sync` propagates; status `0xFF`
means the data line floated; while no write is in progress the three
identity bytes must match the chip constants. -/
def at25sf041_test_con (e : ProbeEnv) : Int :=
  if e.syncResult ≠ 0 then e.syncResult
  else if e.status = 0xFF then - EIO
  else if e.status &&& SR_WIP = 0 then
    if AT25SF041_MAN_ID ≠ e.id0 ∨ AT25SF041_DEV_ID1 ≠ e.id1 ∨
        AT25SF041_DEV_ID2 ≠ e.id2 then - EIO
    else 0
  else 0

/-- One bus transaction (one `spi_sync` call), as observed by the caller:
the probe's two-stage transaction, a register read/write (whose data
segment is added only when `0 < len`), or a read-array transaction with
its five command bytes. -/
inductive BusTxn where
  | probe : BusTxn
  | regRead (opcode : Nat) (len : Int) (hasDataSegment : Bool) : BusTxn
  | regWrite (opcode : Nat) (len : Int) (hasDataSegment : Bool) : BusTxn
  | readArray (commandBuf : List Nat) (readLen : Nat) : BusTxn
  deriving DecidableEq, Repr

/-- Environment for an operation that runs the probe and then one more
`spi_sync` of its own. -/
structure XferEnv where
  probeEnv : ProbeEnv
  syncResult : Int
  deriving DecidableEq, Repr

/-- `at25sf041_read_reg` (source lines 100-131): probe first and bail out
on its error; otherwise issue the opcode transaction, with a data segment
only when `0 < len`. -/
def at25sf041_read_reg (env : XferEnv) (opcode : Nat) (len : Int) :
    Int × List BusTxn :=
  let r := at25sf041_test_con env.probeEnv
  if r ≠ 0 then (r, [BusTxn.probe])
  else
    let t := BusTxn.regRead opcode len (decide (0 < len))
    if env.syncResult ≠ 0 then (env.syncResult, [BusTxn.probe, t])
    else (0, [BusTxn.probe, t])

/-- `at25sf041_write_reg` (source lines 133-164): identical control flow
to `at25sf041_read_reg`, with the data segment transmitted instead of
received. -/
def at25sf041_write_reg (env : XferEnv) (opcode : Nat) (len : Int) :
    Int × List BusTxn :=
  let r := at25sf041_test_con env.probeEnv
  if r ≠ 0 then (r, [BusTxn.probe])
  else
    let t := BusTxn.regWrite opcode len (decide (0 < len))
    if env.syncResult ≠ 0 then (env.syncResult, [BusTxn.probe, t])
    else (0, [BusTxn.probe, t])

/-- `at25sf041_read` (source lines 166-212): clamp the range to
`mtd.size` (`capacity`), probe, then issue the read-array transaction and
return `read_len`.  In `end = min(max_addr, from + len)` the sum
`from + len` is computed in unsigned 64-bit arithmetic (`loff_t` plus
`size_t`), so it wraps modulo `2 ^ 64`; `read_len = end - from` is a
`size_t`, so that subtraction wraps too when `from` exceeds `end`. -/
def at25sf041_read (env : XferEnv) (capacity fromAddr len : Nat) :
    Int × List BusTxn :=
  let command_buf : List Nat :=
    [0x0b, (fromAddr >>> 16) &&& 0xFF, (fromAddr >>> 8) &&& 0xFF,
      fromAddr &&& 0xFF, 0]
  let max_addr := capacity
  let endAddr := min max_addr ((fromAddr + len) % 18446744073709551616)
  let read_len := toSize ((endAddr : Int) - (fromAddr : Int))
  let r := at25sf041_test_con env.probeEnv
  if r ≠ 0 then (r, [BusTxn.probe])
  else
    let t := BusTxn.readArray command_buf read_len
    if env.syncResult ≠ 0 then (env.syncResult, [BusTxn.probe, t])
    else (toSSize read_len, [BusTxn.probe, t])

/-- The `struct at25sf041_page` argument of one PageWriter call: start
address on the chip and chunk length (the buffer pointer is kept out of
the model; only address arithmetic matters to the claims). -/
structure PageCall where
  spi_addr_start : Nat
  len : Nat
  deriving DecidableEq, Repr

/-- `at25sf041_write_page` (source lines 214-255): probe, issue the
page-program transaction, and on success report `page->len` back as an
`ssize_t`. -/
def at25sf041_write_page (env : XferEnv) (page : PageCall) : Int :=
  let r := at25sf041_test_con env.probeEnv
  if r ≠ 0 then r
  else if env.syncResult ≠ 0 then env.syncResult
  else toSSize page.len

/-- The loop body of `at25sf041_write` (source lines 264-282),
parameterised by the PageWriter's behaviour `pw : spi_addr_start → len →
result` (each iteration's `at25sf041_write_page` result).  Returns
`none` when the loop runs `data_left` down to zero, `some e` when an
iteration returns early with `e`, together with the list of PageWriter
calls issued. -/
def at25sf041_write_loop (pw : Nat → Nat → Int) (toAddr data_left : Nat) :
    Option Int × List PageCall :=
  if _h : 0 < data_left then
    let page_off := toAddr &&& 0xFF
    let page_rem := AT25SF041_PAGE_SIZE - page_off
    let chunk := min page_rem data_left
    let result := pw toAddr chunk
    if result < 0 then (some result, [⟨toAddr, chunk⟩])
    else if (chunk : Int) ≠ result then (some (- EIO), [⟨toAddr, chunk⟩])
    else
      let rest := at25sf041_write_loop pw (toAddr + chunk) (data_left - chunk)
      (rest.1, ⟨toAddr, chunk⟩ :: rest.2)
  else (none, [])
termination_by data_left
decreasing_by
  have hoff : toAddr &&& 0xFF ≤ 0xFF := Nat.and_le_right
  simp only [AT25SF041_PAGE_SIZE]
  omega

/-- `at25sf041_write` (source lines 256-284): clamp the total length to
`mtd.size` (`capacity`) exactly as the reader does — with the same
unsigned 64-bit wrap in `to + len` — run the chunk loop, and on normal
completion return `write_len`. -/
def at25sf041_write (pw : Nat → Nat → Int) (capacity toAddr len : Nat) :
    Int × List PageCall :=
  let max_addr := capacity
  let endAddr := min max_addr ((toAddr + len) % 18446744073709551616)
  let write_len := toSize ((endAddr : Int) - (toAddr : Int))
  let res := at25sf041_write_loop pw toAddr write_len
  ((match res.1 with
    | some e => e
    | none => toSSize write_len), res.2)

/-- Projection: the `ssize_t` value returned by `at25sf041_write`. -/
def writeResult (pw : Nat → Nat → Int) (capacity toAddr len : Nat) : Int :=
  (at25sf041_write pw capacity toAddr len).1

/-- Projection: the PageWriter calls issued by `at25sf041_write`, in
order. -/
def writeCalls (pw : Nat → Nat → Int) (capacity toAddr len : Nat) :
    List PageCall :=
  (at25sf041_write pw capacity toAddr len).2

/-- PageWriter behaviour that always reports the requested chunk
length. -/
def pwExact : Nat → Nat → Int := fun _ l => (l : Int)

/-- PageWriter behaviour that reports one byte fewer than requested: a
"successful" but short page program. -/
def pwShort : Nat → Nat → Int := fun _ l => (l : Int) - 1

/-- PageWriter behaviour that always fails with `-ETIMEDOUT`. -/
def pwDown : Nat → Nat → Int := fun _ _ => -110

/-- Bus environment in which every transaction succeeds and the chip
answers with status `0x00` and the correct identity bytes. -/
def envOK : XferEnv := ⟨⟨0, 0x00, 0x1F, 0x84, 0x01⟩, 0⟩

/-- Bus environment whose probe transaction fails with `-ETIMEDOUT`. -/
def envDown : XferEnv := ⟨⟨-110, 0xAB, 0, 0, 0⟩, 0⟩

/-- The low byte of an address is its remainder modulo the page size. -/
theorem and_255_eq_mod (n : Nat) : n &&& 0xFF = n % 256 := by
  have h := Nat.and_pow_two_sub_one_eq_mod n 8
  simpa using h

/-- `ssize_t` round trip: converting an in-range integer to `size_t` and
reading it back as `ssize_t` is the identity. -/
theorem toSSize_toSize (i : Int) (h1 : -(9223372036854775808 : Int) ≤ i)
    (h2 : i < 9223372036854775808) : toSSize (toSize i) = i := by
  unfold toSize toSSize
  split <;> omega

/-- C4: whenever the probe's bus transaction succeeds and the received
status byte is `0xFF`, `at25sf041_test_con` reports the chip as
disconnected with `-EIO`, whatever the three identity bytes contain. -/
theorem test_con_status_ff_disconnected (e : ProbeEnv)
    (hsync : e.syncResult = 0) (hst : e.status = 0xFF) :
    at25sf041_test_con e = - EIO := by
  simp [at25sf041_test_con, hsync, hst]

theorem test_con_status_ff_disconnected_witness :
    at25sf041_test_con ⟨0, 0xFF, 7, 8, 9⟩ = - EIO :=
  test_con_status_ff_disconnected ⟨0, 0xFF, 7, 8, 9⟩ rfl rfl

/-- C5: whenever the probe's bus transaction succeeds, the status byte is
not `0xFF` and its write-in-progress bit is set, `at25sf041_test_con`
returns 0 (connected) without looking at the identity bytes. -/
theorem test_con_wip_connected (e : ProbeEnv) (hsync : e.syncResult = 0)
    (hff : e.status ≠ 0xFF) (hwip : e.status &&& SR_WIP ≠ 0) :
    at25sf041_test_con e = 0 := by
  simp [at25sf041_test_con, hsync, hff, hwip]

theorem test_con_wip_connected_witness :
    at25sf041_test_con ⟨0, 0x01, 7, 8, 9⟩ = 0 :=
  test_con_wip_connected ⟨0, 0x01, 7, 8, 9⟩ rfl (by decide) (by decide)

/-- C6: whenever the probe's bus transaction succeeds and the status byte
is `0x00` (idle), `at25sf041_test_con` returns `-EIO` if the three
identity bytes differ anywhere from `0x1F, 0x84, 0x01`, and 0 if they
match exactly. -/
theorem test_con_idle_checks_identity (e : ProbeEnv)
    (hsync : e.syncResult = 0) (hst : e.status = 0) :
    (¬ (e.id0 = 0x1F ∧ e.id1 = 0x84 ∧ e.id2 = 0x01) →
      at25sf041_test_con e = - EIO) ∧
    ((e.id0 = 0x1F ∧ e.id1 = 0x84 ∧ e.id2 = 0x01) →
      at25sf041_test_con e = 0) := by
  unfold at25sf041_test_con AT25SF041_MAN_ID AT25SF041_DEV_ID1
    AT25SF041_DEV_ID2 SR_WIP
  constructor <;> intro h <;>
    simp [hsync, hst] <;> tauto

theorem test_con_idle_checks_identity_witness :
    at25sf041_test_con ⟨0, 0, 7, 8, 9⟩ = - EIO ∧
    at25sf041_test_con ⟨0, 0, 0x1F, 0x84, 0x01⟩ = 0 :=
  ⟨(test_con_idle_checks_identity ⟨0, 0, 7, 8, 9⟩ rfl rfl).1 (by decide),
    (test_con_idle_checks_identity ⟨0, 0, 0x1F, 0x84, 0x01⟩ rfl rfl).2
      (by decide)⟩

/-- C8: both `at25sf041_read_reg` and `at25sf041_write_reg` run the
connection probe first; when the probe reports an error, the call returns
exactly that error and the only bus transaction issued is the probe's:
no register transaction reaches the bus. -/
theorem reg_access_gated_on_probe (env : XferEnv) (opcode : Nat)
    (len : Int) (hfail : at25sf041_test_con env.probeEnv ≠ 0) :
    at25sf041_read_reg env opcode len
        = (at25sf041_test_con env.probeEnv, [BusTxn.probe]) ∧
    at25sf041_write_reg env opcode len
        = (at25sf041_test_con env.probeEnv, [BusTxn.probe]) := by
  constructor <;>
    simp [at25sf041_read_reg, at25sf041_write_reg, hfail]

theorem reg_access_gated_on_probe_witness :
    at25sf041_read_reg envDown 0x05 1 = (-110, [BusTxn.probe]) ∧
    at25sf041_write_reg envDown 0x01 1 = (-110, [BusTxn.probe]) := by
  have h := reg_access_gated_on_probe envDown 0x05 1 (by decide)
  have h2 := reg_access_gated_on_probe envDown 0x01 1 (by decide)
  exact ⟨h.1, h2.2⟩

/-- The clamped total length `write_len` computed at the top of
`at25sf041_write`. -/
def writeLen (capacity toAddr len : Nat) : Nat :=
  toSize (((min capacity ((toAddr + len) % 18446744073709551616) : Nat) : Int)
    - (toAddr : Int))

/-- `at25sf041_write` spelled out through `writeLen` and the loop. -/
theorem write_unfold (pw : Nat → Nat → Int) (capacity toAddr len : Nat) :
    at25sf041_write pw capacity toAddr len
      = ((match (at25sf041_write_loop pw toAddr
            (writeLen capacity toAddr len)).1 with
          | some e => e
          | none => toSSize (writeLen capacity toAddr len)),
        (at25sf041_write_loop pw toAddr (writeLen capacity toAddr len)).2) :=
  rfl

/-- An exhausted `data_left` ends the loop with no PageWriter call. -/
theorem write_loop_zero (pw : Nat → Nat → Int) (toAddr : Nat) :
    at25sf041_write_loop pw toAddr 0 = (none, []) := by
  rw [at25sf041_write_loop]
  simp

/-- One successful loop iteration: the PageWriter accepted the whole
chunk `c`, so the loop records the call and continues behind it. -/
theorem write_loop_step_ok (pw : Nat → Nat → Int) (toAddr d c : Nat)
    (h : 0 < d) (hc : c = min (AT25SF041_PAGE_SIZE - (toAddr &&& 0xFF)) d)
    (hpw : pw toAddr c = (c : Int)) :
    at25sf041_write_loop pw toAddr d
      = ((at25sf041_write_loop pw (toAddr + c) (d - c)).1,
        ⟨toAddr, c⟩ :: (at25sf041_write_loop pw (toAddr + c) (d - c)).2) := by
  subst hc
  rw [at25sf041_write_loop]
  simp only [dif_pos h]
  simp [hpw]

/-- One failing loop iteration: a negative PageWriter result ends the
loop at once and is the loop's result. -/
theorem write_loop_step_neg (pw : Nat → Nat → Int) (toAddr d c : Nat)
    (h : 0 < d) (hc : c = min (AT25SF041_PAGE_SIZE - (toAddr &&& 0xFF)) d)
    (hpw : pw toAddr c < 0) :
    at25sf041_write_loop pw toAddr d
      = (some (pw toAddr c), [⟨toAddr, c⟩]) := by
  subst hc
  rw [at25sf041_write_loop]
  simp only [dif_pos h]
  simp [hpw]

/-- One inconsistent loop iteration: a non-negative PageWriter result
different from the chunk length ends the loop at once with `-EIO`. -/
theorem write_loop_step_bad (pw : Nat → Nat → Int) (toAddr d c : Nat)
    (h : 0 < d) (hc : c = min (AT25SF041_PAGE_SIZE - (toAddr &&& 0xFF)) d)
    (hge : 0 ≤ pw toAddr c) (hne : (c : Int) ≠ pw toAddr c) :
    at25sf041_write_loop pw toAddr d = (some (- EIO), [⟨toAddr, c⟩]) := by
  subst hc
  rw [at25sf041_write_loop]
  simp only [dif_pos h]
  rw [if_neg (by omega), if_pos hne]

/-- C1 counterexample: with a fully healthy bus, a read at
`from = capacity` (capacity 524288, length 4) does issue bus traffic —
the transaction list is not empty (it contains the probe and the
read-array transaction) — and a read at `from = capacity + 1` does not
even return 0: the claim "returns 0 without invoking the transport" fails
on both counts. -/
theorem read_past_capacity_cex :
    (at25sf041_read envOK 524288 524288 4).2 ≠ [] ∧
    (at25sf041_read envOK 524288 524289 4).1 ≠ 0 := by decide

/-- C1 amended: for `from ≥ capacity`, when the unsigned 64-bit sum
`from + length` does not wrap (and `from - capacity` is within `ssize_t`
range), with a healthy bus `at25sf041_read` still issues the probe and
the read-array transaction, and returns `capacity - from` (0 at
`from = capacity`, negative beyond it after the `size_t` subtraction
wraps and is read back as `ssize_t`). -/
theorem read_from_ge_capacity (env : XferEnv) (capacity fromAddr len : Nat)
    (hge : capacity ≤ fromAddr)
    (hnw : fromAddr + len < 18446744073709551616)
    (hbound : fromAddr ≤ capacity + 9223372036854775808)
    (hprobe : at25sf041_test_con env.probeEnv = 0)
    (hsync : env.syncResult = 0) :
    at25sf041_read env capacity fromAddr len
      = ((capacity : Int) - (fromAddr : Int),
        [BusTxn.probe,
          BusTxn.readArray
            [0x0b, (fromAddr >>> 16) &&& 0xFF, (fromAddr >>> 8) &&& 0xFF,
              fromAddr &&& 0xFF, 0]
            (toSize ((capacity : Int) - (fromAddr : Int)))]) := by
  have hsum : (fromAddr + len) % 18446744073709551616 = fromAddr + len :=
    Nat.mod_eq_of_lt hnw
  have hmin : min capacity ((fromAddr + len) % 18446744073709551616)
      = capacity := by
    rw [hsum]
    exact Nat.min_eq_left (le_trans hge (Nat.le_add_right _ _))
  unfold at25sf041_read
  simp only [hmin, hprobe, hsync, ne_eq, not_true_eq_false, if_false,
    ite_false]
  rw [toSSize_toSize ((capacity : Int) - (fromAddr : Int)) (by omega)
    (by omega)]

theorem read_from_ge_capacity_witness :
    at25sf041_read envOK 524288 524289 4
      = (((524288 : Nat) : Int) - ((524289 : Nat) : Int),
        [BusTxn.probe,
          BusTxn.readArray
            [0x0b, (524289 >>> 16) &&& 0xFF, (524289 >>> 8) &&& 0xFF,
              524289 &&& 0xFF, 0]
            (toSize (((524288 : Nat) : Int) - ((524289 : Nat) : Int)))]) :=
  read_from_ge_capacity envOK 524288 524289 4 (by decide) (by decide)
    (by decide) (by decide) rfl

/-- C7 counterexample: truncation to `capacity - from` fails once the
unsigned 64-bit sum `from + len` wraps.  At `capacity = 524288`,
`from = 100`, `len = 2 ^ 64 - 50` (an in-range `from` with
`from + length > capacity`), with a healthy bus the sum wraps to 50, so
`end = min(524288, 50) = 50`, `read_len = (size_t)(50 - 100)` and the
call returns `-50` instead of `capacity - from = 524188`. -/
theorem read_truncates_wrap_cex :
    (at25sf041_read envOK 524288 100 18446744073709551566).1 = -50 ∧
    (at25sf041_read envOK 524288 100 18446744073709551566).1
      ≠ ((524288 : Nat) : Int) - ((100 : Nat) : Int) := by decide

/-- C7 amended: an in-range read (`from < capacity`) that asks past the
end (`from + length > capacity`), where the unsigned 64-bit sum
`from + length` does not wrap, is silently truncated: with a healthy
bus, `at25sf041_read` returns exactly `capacity - from`. -/
theorem read_truncates_at_capacity (env : XferEnv)
    (capacity fromAddr len : Nat) (hlt : fromAddr < capacity)
    (hover : capacity < fromAddr + len)
    (hnw : fromAddr + len < 18446744073709551616)
    (hcap : capacity < 9223372036854775808)
    (hprobe : at25sf041_test_con env.probeEnv = 0)
    (hsync : env.syncResult = 0) :
    (at25sf041_read env capacity fromAddr len).1
      = (capacity : Int) - (fromAddr : Int) := by
  have hsum : (fromAddr + len) % 18446744073709551616 = fromAddr + len :=
    Nat.mod_eq_of_lt hnw
  have hmin : min capacity ((fromAddr + len) % 18446744073709551616)
      = capacity := by
    rw [hsum]
    exact Nat.min_eq_left (Nat.le_of_lt hover)
  unfold at25sf041_read
  simp only [hmin, hprobe, hsync, ne_eq, not_true_eq_false, if_false,
    ite_false]
  rw [toSSize_toSize ((capacity : Int) - (fromAddr : Int)) (by omega)
    (by omega)]

theorem read_truncates_at_capacity_witness :
    (at25sf041_read envOK 524288 524280 100).1
      = ((524288 : Nat) : Int) - ((524280 : Nat) : Int) :=
  read_truncates_at_capacity envOK 524288 524280 100 (by decide)
    (by decide) (by decide) (by decide) rfl rfl

/-- Every PageWriter call the loop issues has a non-empty chunk that fits
inside the 256-byte page holding its start address. -/
theorem write_loop_chunk_in_page (pw : Nat → Nat → Int) :
    ∀ d toAddr c, c ∈ (at25sf041_write_loop pw toAddr d).2 →
      1 ≤ c.len ∧ c.spi_addr_start % 256 + c.len ≤ 256 := by
  intro d
  induction d using Nat.strong_induction_on with
  | _ d ih =>
    intro toAddr c hc
    rcases Nat.eq_zero_or_pos d with hd | hd
    · subst hd
      rw [write_loop_zero] at hc
      simp at hc
    · have hmod : toAddr &&& 0xFF = toAddr % 256 := and_255_eq_mod toAddr
      set ck := min (AT25SF041_PAGE_SIZE - (toAddr &&& 0xFF)) d with hck
      have hbounds : 1 ≤ ck ∧ toAddr % 256 + ck ≤ 256 ∧ ck ≤ d := by
        rw [hck]
        unfold AT25SF041_PAGE_SIZE
        omega
      have hhead : (1 : Nat) ≤ (⟨toAddr, ck⟩ : PageCall).len ∧
          (⟨toAddr, ck⟩ : PageCall).spi_addr_start % 256 +
            (⟨toAddr, ck⟩ : PageCall).len ≤ 256 := ⟨hbounds.1, hbounds.2.1⟩
      by_cases hneg : pw toAddr ck < 0
      · rw [write_loop_step_neg pw toAddr d ck hd hck hneg] at hc
        simp at hc
        subst hc
        exact hhead
      · by_cases heq : (ck : Int) = pw toAddr ck
        · rw [write_loop_step_ok pw toAddr d ck hd hck heq.symm] at hc
          rcases List.mem_cons.mp hc with h1 | h1
          · subst h1
            exact hhead
          · exact ih (d - ck) (by omega) (toAddr + ck) c h1
        · rw [write_loop_step_bad pw toAddr d ck hd hck (by omega) heq] at hc
          simp at hc
          subst hc
          exact hhead

/-- A PageWriter call whose result is negative, or non-negative but
different from its chunk length, is always the last call the loop
issues, and the loop's result is the propagated error, respectively
`-EIO`. -/
theorem write_loop_abort (pw : Nat → Nat → Int) :
    ∀ d toAddr i c,
      (at25sf041_write_loop pw toAddr d).2[i]? = some c →
      ((pw c.spi_addr_start c.len < 0 →
          i = (at25sf041_write_loop pw toAddr d).2.length - 1 ∧
          (at25sf041_write_loop pw toAddr d).1
            = some (pw c.spi_addr_start c.len)) ∧
        (0 ≤ pw c.spi_addr_start c.len →
          (c.len : Int) ≠ pw c.spi_addr_start c.len →
          i = (at25sf041_write_loop pw toAddr d).2.length - 1 ∧
          (at25sf041_write_loop pw toAddr d).1 = some (- EIO))) := by
  intro d
  induction d using Nat.strong_induction_on with
  | _ d ih =>
    intro toAddr i c hc
    rcases Nat.eq_zero_or_pos d with hd | hd
    · subst hd
      rw [write_loop_zero] at hc
      simp at hc
    · set ck := min (AT25SF041_PAGE_SIZE - (toAddr &&& 0xFF)) d with hck
      have hmod : toAddr &&& 0xFF = toAddr % 256 := and_255_eq_mod toAddr
      have hck1 : 1 ≤ ck ∧ ck ≤ d := by
        rw [hck]
        unfold AT25SF041_PAGE_SIZE
        omega
      by_cases hneg : pw toAddr ck < 0
      · rw [write_loop_step_neg pw toAddr d ck hd hck hneg] at hc ⊢
        have hi0 : i = 0 ∧ c = ⟨toAddr, ck⟩ := by
          rcases i with _ | j
          · simp at hc
            exact ⟨rfl, hc.symm⟩
          · simp at hc
        rcases hi0 with ⟨hi0, hc0⟩
        subst hi0
        subst hc0
        constructor
        · intro h
          simp
        · intro h1 h2
          dsimp only at h1
          omega
      · by_cases heq : (ck : Int) = pw toAddr ck
        · rw [write_loop_step_ok pw toAddr d ck hd hck heq.symm] at hc ⊢
          rcases i with _ | j
          · simp at hc
            subst hc
            constructor
            · intro h
              rw [← heq] at h
              exact absurd h (by omega)
            · intro h1 h2
              dsimp only at h2
              exact absurd heq h2
          · simp only [List.getElem?_cons_succ] at hc
            have hrec := ih (d - ck) (by omega) (toAddr + ck) j c hc
            have hne : (at25sf041_write_loop pw (toAddr + ck) (d - ck)).2 ≠ [] := by
              intro hnil
              rw [hnil] at hc
              simp at hc
            have hlen : (at25sf041_write_loop pw (toAddr + ck) (d - ck)).2.length ≥ 1 :=
              List.length_pos.mpr hne
            constructor
            · intro h
              have := hrec.1 h
              simp only [List.length_cons]
              exact ⟨by omega, this.2⟩
            · intro h1 h2
              have := hrec.2 h1 h2
              simp only [List.length_cons]
              exact ⟨by omega, this.2⟩
        · rw [write_loop_step_bad pw toAddr d ck hd hck (by omega) heq] at hc ⊢
          have hi0 : i = 0 ∧ c = ⟨toAddr, ck⟩ := by
            rcases i with _ | j
            · simp at hc
              exact ⟨rfl, hc.symm⟩
            · simp at hc
          rcases hi0 with ⟨hi0, hc0⟩
          subst hi0
          subst hc0
          constructor
          · intro h
            dsimp only at h
            omega
          · intro h1 h2
            simp

/-- With a PageWriter that always accepts its full chunk, the loop runs
`data_left` all the way down to zero and the issued chunks sum to it. -/
theorem write_loop_honest (pw : Nat → Nat → Int)
    (hpw : ∀ a l, pw a l = (l : Int)) :
    ∀ d toAddr, (at25sf041_write_loop pw toAddr d).1 = none ∧
      ((at25sf041_write_loop pw toAddr d).2.map PageCall.len).sum = d := by
  intro d
  induction d using Nat.strong_induction_on with
  | _ d ih =>
    intro toAddr
    rcases Nat.eq_zero_or_pos d with hd | hd
    · subst hd
      rw [write_loop_zero]
      simp
    · set ck := min (AT25SF041_PAGE_SIZE - (toAddr &&& 0xFF)) d with hck
      have hmod : toAddr &&& 0xFF = toAddr % 256 := and_255_eq_mod toAddr
      have hck1 : 1 ≤ ck ∧ ck ≤ d := by
        rw [hck]
        unfold AT25SF041_PAGE_SIZE
        omega
      rw [write_loop_step_ok pw toAddr d ck hd hck (hpw toAddr ck)]
      have hrec := ih (d - ck) (by omega) (toAddr + ck)
      refine ⟨hrec.1, ?_⟩
      simp only [List.map_cons, List.sum_cons, hrec.2]
      omega

/-- The call list of `at25sf041_write` is the loop's call list. -/
theorem write_calls_eq (pw : Nat → Nat → Int) (capacity toAddr len : Nat) :
    writeCalls pw capacity toAddr len
      = (at25sf041_write_loop pw toAddr (writeLen capacity toAddr len)).2 :=
  rfl

/-- When the loop ends early with `some e`, `at25sf041_write` returns
`e`. -/
theorem write_result_of_early (pw : Nat → Nat → Int)
    (capacity toAddr len : Nat) (e : Int)
    (h : (at25sf041_write_loop pw toAddr (writeLen capacity toAddr len)).1
      = some e) :
    writeResult pw capacity toAddr len = e := by
  have hdef : writeResult pw capacity toAddr len
      = (match (at25sf041_write_loop pw toAddr
            (writeLen capacity toAddr len)).1 with
        | some x => x
        | none => toSSize (writeLen capacity toAddr len)) := rfl
  rw [hdef, h]

/-- C2: every PageWriter call issued by `at25sf041_write` stays inside
one 256-byte page: the chunk's first and last byte addresses have the
same page index, for every PageWriter behaviour, capacity, destination
and length. -/
theorem write_chunks_stay_in_page (pw : Nat → Nat → Int)
    (capacity toAddr len : Nat) (c : PageCall)
    (hc : c ∈ writeCalls pw capacity toAddr len) :
    c.spi_addr_start / AT25SF041_PAGE_SIZE
      = (c.spi_addr_start + c.len - 1) / AT25SF041_PAGE_SIZE := by
  rw [write_calls_eq] at hc
  have h := write_loop_chunk_in_page pw (writeLen capacity toAddr len)
    toAddr c hc
  unfold AT25SF041_PAGE_SIZE
  omega

theorem write_chunks_stay_in_page_witness :
    (⟨0, 8⟩ : PageCall).spi_addr_start / AT25SF041_PAGE_SIZE
      = ((⟨0, 8⟩ : PageCall).spi_addr_start + (⟨0, 8⟩ : PageCall).len - 1)
        / AT25SF041_PAGE_SIZE := by
  have hW : writeLen 524288 0 8 = 8 := by decide
  have hloop : at25sf041_write_loop pwExact 0 8
      = ((at25sf041_write_loop pwExact (0 + 8) (8 - 8)).1,
        ⟨0, 8⟩ :: (at25sf041_write_loop pwExact (0 + 8) (8 - 8)).2) :=
    write_loop_step_ok pwExact 0 8 8 (by decide) (by decide) (by decide)
  have hc : (⟨0, 8⟩ : PageCall) ∈ writeCalls pwExact 524288 0 8 := by
    rw [write_calls_eq, hW, hloop]
    simp
  exact write_chunks_stay_in_page pwExact 524288 0 8 ⟨0, 8⟩ hc

/-- C3: if the `i`-th PageWriter call of an `at25sf041_write` run gets a
negative result, it is the last call issued and the write returns that
result unchanged; if it gets a non-negative result different from its
chunk length, it is the last call issued and the write returns `-EIO`. -/
theorem write_aborts_on_pagewriter_mismatch (pw : Nat → Nat → Int)
    (capacity toAddr len i : Nat) (c : PageCall)
    (hc : (writeCalls pw capacity toAddr len)[i]? = some c) :
    (pw c.spi_addr_start c.len < 0 →
      i = (writeCalls pw capacity toAddr len).length - 1 ∧
      writeResult pw capacity toAddr len = pw c.spi_addr_start c.len) ∧
    (0 ≤ pw c.spi_addr_start c.len →
      (c.len : Int) ≠ pw c.spi_addr_start c.len →
      i = (writeCalls pw capacity toAddr len).length - 1 ∧
      writeResult pw capacity toAddr len = - EIO) := by
  rw [write_calls_eq] at hc
  have habort := write_loop_abort pw (writeLen capacity toAddr len)
    toAddr i c hc
  constructor
  · intro h
    have h1 := habort.1 h
    rw [write_calls_eq]
    exact ⟨h1.1, write_result_of_early pw capacity toAddr len _ h1.2⟩
  · intro h1 h2
    have h3 := habort.2 h1 h2
    rw [write_calls_eq]
    exact ⟨h3.1, write_result_of_early pw capacity toAddr len _ h3.2⟩

theorem write_aborts_on_pagewriter_mismatch_witness :
    (0 : Nat) = (writeCalls pwShort 524288 0 8).length - 1 ∧
    writeResult pwShort 524288 0 8 = - EIO := by
  have hW : writeLen 524288 0 8 = 8 := by decide
  have hloop : at25sf041_write_loop pwShort 0 8 = (some (- EIO), [⟨0, 8⟩]) :=
    write_loop_step_bad pwShort 0 8 8 (by decide) (by decide) (by decide)
      (by decide)
  have hc : (writeCalls pwShort 524288 0 8)[0]? = some ⟨0, 8⟩ := by
    rw [write_calls_eq, hW, hloop]
    rfl
  exact (write_aborts_on_pagewriter_mismatch pwShort 524288 0 8 0 ⟨0, 8⟩
    hc).2 (by decide) (by decide)

/-- C9: a write of 10 bytes starting at address 253 (page size 256,
capacity 524288), with a PageWriter that accepts every chunk in full,
issues exactly two PageWriter calls — 3 bytes at 253 filling the first
page, then 7 bytes at 256 — and returns 10. -/
theorem write_253_len10_two_chunks :
    at25sf041_write pwExact 524288 253 10 = (10, [⟨253, 3⟩, ⟨256, 7⟩]) := by
  have hW : writeLen 524288 253 10 = 10 := by decide
  rw [write_unfold, hW,
    write_loop_step_ok pwExact 253 10 3 (by decide) (by decide) (by decide)]
  norm_num
  rw [write_loop_step_ok pwExact 256 7 7 (by decide) (by decide) (by decide)]
  norm_num [write_loop_zero, toSSize]

/-- C10: the chunk loop of `at25sf041_write` terminates when the
PageWriter accepts every chunk: whenever at least one byte is left, the
chunk `min (page_size - to mod 256) data_left` is at least 1, so
`data_left` strictly decreases; the loop finishes without an early
return and its chunks sum exactly to the initial `data_left`. -/
theorem write_loop_terminates_on_honest_pagewriter (pw : Nat → Nat → Int)
    (hpw : ∀ a l, pw a l = (l : Int)) (toAddr d : Nat) :
    (1 ≤ d → 1 ≤ min (AT25SF041_PAGE_SIZE - (toAddr &&& 0xFF)) d) ∧
    (at25sf041_write_loop pw toAddr d).1 = none ∧
    ((at25sf041_write_loop pw toAddr d).2.map PageCall.len).sum = d := by
  refine ⟨?_, write_loop_honest pw hpw d toAddr⟩
  intro hd
  have hmod : toAddr &&& 0xFF = toAddr % 256 := and_255_eq_mod toAddr
  unfold AT25SF041_PAGE_SIZE
  rw [hmod]
  omega

theorem write_loop_terminates_on_honest_pagewriter_witness :
    (1 ≤ 10 → 1 ≤ min (AT25SF041_PAGE_SIZE - (253 &&& 0xFF)) 10) ∧
    (at25sf041_write_loop pwExact 253 10).1 = none ∧
    ((at25sf041_write_loop pwExact 253 10).2.map PageCall.len).sum = 10 :=
  write_loop_terminates_on_honest_pagewriter pwExact (fun _ _ => rfl) 253 10

end AT25SF041
